import Mathlib

/-!
Shallow embedding of `src/server/src/main.rs` — a websocket drawing-event
broadcast relay built on warp/tokio with serde_json (de)serialization.

The embedding works at the level of JSON values (the output of serde_json's
parser), with machine numbers represented exactly:

* JSON numbers keep serde_json's distinction between integer literals
  (`serde_json::Number::PosInt/NegInt`) and floating-point literals
  (`serde_json::Number::Float`); finite doubles are represented exactly as
  rationals.  This distinction is observable on the wire: serde_json prints a
  float-valued number with a decimal point (`0.0`), never as `0`.
* `u32` is a natural number; the deserializer enforces `0 ≤ n ≤ 4294967295`
  exactly as serde_json does when deserializing `u32` (floats are rejected
  even when integral, integers out of range are rejected).
* The registry `HashMap<usize, UnboundedSender<Message>>` is an association
  list with unique keys; an unbounded mpsc channel is a FIFO queue plus a
  `closed` flag (`closed = true` models a dropped receiver, the only way
  `UnboundedSender::send` can fail).
-/

namespace WsRelay

/-- A serde_json number: an integer literal (`Number::PosInt`/`NegInt`) or a
floating-point literal (`Number::Float`).  A finite double is represented
exactly by its rational value. -/
inductive JNum where
  | int (n : ℤ)
  | float (q : ℚ)
deriving DecidableEq, Repr

/-- A serde_json value.  Objects are the key/value sequences produced by the
parser (duplicate keys are representable; serde's derived visitors reject
duplicates of known fields). -/
inductive Json where
  | null
  | bool (b : Bool)
  | num (n : JNum)
  | str (s : String)
  | arr (elems : List Json)
  | obj (fields : List (String × Json))

/-- Embeds `struct DrawCommand { prev: [f64; 2], cur: [f64; 2], color: String,
brush_size: u32 }` (main.rs lines 23-29).  Coordinates are finite doubles,
represented exactly as rationals; `brush_size` is a `u32` value. -/
structure DrawCommand where
  prev : ℚ × ℚ
  cur : ℚ × ℚ
  color : String
  brush_size : ℕ
deriving DecidableEq, Repr

/-- Embeds `struct EraseCommand { prev: [f64; 2], cur: [f64; 2], brush_size: u32 }`
(main.rs lines 31-36). -/
structure EraseCommand where
  prev : ℚ × ℚ
  cur : ℚ × ℚ
  brush_size : ℕ
deriving DecidableEq, Repr

/-- Embeds `enum MessageType { Draw(DrawCommand), Clear, Erase(EraseCommand) }`
with `#[serde(tag = "type", content = "data")]` (main.rs lines 15-21).
Constructor order matches the Rust declaration order (variant indices
Draw = 0, Clear = 1, Erase = 2). -/
inductive MessageType where
  | Draw (c : DrawCommand)
  | Clear
  | Erase (c : EraseCommand)
deriving DecidableEq, Repr

/-- A `u32` value fits in 32 bits; `validEvent` states that an event's
`brush_size` field holds a representable `u32`, which is automatic for every
value of the Rust type. -/
def validEvent : MessageType → Bool
  | .Draw c => c.brush_size ≤ 4294967295
  | .Clear => true
  | .Erase c => c.brush_size ≤ 4294967295

/-! ### Deserialization (serde_json + serde_derive semantics) -/

/-- Deserializing `f64`: serde_json accepts any JSON number (integer literals
are converted with an `as f64` cast — exact for the magnitudes exercised
here — and float literals are taken as-is). -/
def asF64 : Json → Option ℚ
  | .num (.int n) => some (n : ℚ)
  | .num (.float q) => some q
  | _ => none

/-- Deserializing `u32`: serde_json accepts only an integer literal in
`[0, 4294967295]`; a float literal (even an integral one such as `4.0`), a
negative integer, or an out-of-range integer is an error. -/
def asU32 : Json → Option ℕ
  | .num (.int n) => if 0 ≤ n ∧ n ≤ 4294967295 then some n.toNat else none
  | _ => none

/-- Deserializing `String`: only a JSON string. -/
def asString : Json → Option String
  | .str s => some s
  | _ => none

/-- Deserializing `[f64; 2]`: exactly a two-element JSON array of numbers
(serde errors on any other arity and serde_json rejects unconsumed trailing
elements). -/
def asPoint : Json → Option (ℚ × ℚ)
  | .arr [a, b] =>
    match asF64 a, asF64 b with
    | some x, some y => some (x, y)
    | _, _ => none
  | _ => none

/-- All values bound to key `k` in an object, in order of appearance. -/
def fieldVals (kvs : List (String × Json)) (k : String) : List Json :=
  (kvs.filter (fun kv => kv.1 == k)).map Prod.snd

/-- serde's derived field access: the value of `k` when it occurs exactly
once.  A missing field is a `missing field` error, a repeated known field is
a `duplicate field` error; unrelated keys are ignored (the derived visitors
have no `deny_unknown_fields`). -/
def getField (kvs : List (String × Json)) (k : String) : Option Json :=
  match fieldVals kvs k with
  | [v] => some v
  | _ => none

/-- Field-wise deserialization of `DrawCommand` from a JSON object body. -/
def decodeDrawFields (kvs : List (String × Json)) : Option DrawCommand :=
  ((getField kvs "prev").bind asPoint).bind fun p =>
  ((getField kvs "cur").bind asPoint).bind fun c =>
  ((getField kvs "color").bind asString).bind fun col =>
  ((getField kvs "brush_size").bind asU32).bind fun b =>
  some { prev := p, cur := c, color := col, brush_size := b }

/-- Deserializing `DrawCommand`: from a JSON object, or positionally from a
JSON array (serde's derived struct visitor also implements `visit_seq`;
serde_json errors on arrays of any other length). -/
def decodeDrawCommand : Json → Option DrawCommand
  | .obj kvs => decodeDrawFields kvs
  | .arr [p, c, col, b] =>
    (asPoint p).bind fun pv =>
    (asPoint c).bind fun cv =>
    (asString col).bind fun colv =>
    (asU32 b).bind fun bv =>
    some { prev := pv, cur := cv, color := colv, brush_size := bv }
  | _ => none

/-- Field-wise deserialization of `EraseCommand` from a JSON object body. -/
def decodeEraseFields (kvs : List (String × Json)) : Option EraseCommand :=
  ((getField kvs "prev").bind asPoint).bind fun p =>
  ((getField kvs "cur").bind asPoint).bind fun c =>
  ((getField kvs "brush_size").bind asU32).bind fun b =>
  some { prev := p, cur := c, brush_size := b }

/-- Deserializing `EraseCommand` (object or positional array form). -/
def decodeEraseCommand : Json → Option EraseCommand
  | .obj kvs => decodeEraseFields kvs
  | .arr [p, c, b] =>
    (asPoint p).bind fun pv =>
    (asPoint c).bind fun cv =>
    (asU32 b).bind fun bv =>
    some { prev := pv, cur := cv, brush_size := bv }
  | _ => none

/-- The three variants of `MessageType`, used as variant identifiers. -/
inductive VariantTag where
  | draw
  | clear
  | erase
deriving DecidableEq, Repr

/-- serde's derived variant identifier: a string naming the variant, or an
integer giving the variant's index in declaration order. -/
def decodeTag : Json → Option VariantTag
  | .str s =>
    if s = "Draw" then some .draw
    else if s = "Clear" then some .clear
    else if s = "Erase" then some .erase
    else none
  | .num (.int n) =>
    if n = 0 then some .draw
    else if n = 1 then some .clear
    else if n = 2 then some .erase
    else none
  | _ => none

/-- Dispatch of serde's adjacently-tagged representation once the `type` tag
and the optional `data` content have been isolated: a newtype variant
requires content, the unit variant `Clear` allows absent or `null` content. -/
def decodeTagged (tag : Json) (content : Option Json) : Option MessageType :=
  match decodeTag tag, content with
  | some .draw, some d => (decodeDrawCommand d).map .Draw
  | some .draw, none => none
  | some .clear, none => some .Clear
  | some .clear, some .null => some .Clear
  | some .clear, some _ => none
  | some .erase, some d => (decodeEraseCommand d).map .Erase
  | some .erase, none => none
  | none, _ => none

/-- Embeds `serde_json::from_str::<MessageType>` on an already-parsed JSON value
(main.rs line 90).  The adjacently-tagged derived deserializer accepts a map
with a `type` key and optional `data` key (other keys ignored, duplicates of
`type`/`data` rejected), or a `[tag]`/`[tag, content]` sequence. -/
def decodeJson : Json → Option MessageType
  | .obj kvs =>
    match fieldVals kvs "type", fieldVals kvs "data" with
    | [t], [] => decodeTagged t none
    | [t], [d] => decodeTagged t (some d)
    | _, _ => none
  | .arr [t] => decodeTagged t none
  | .arr [t, d] => decodeTagged t (some d)
  | _ => none

/-! ### Serialization (`serde_json::to_string`, main.rs line 93)

The derived `Serialize` emits the adjacently-tagged form: `type` first, then
`data` (omitted for the unit variant `Clear`); struct fields in declaration
order; `f64` values as float-formatted numbers (serde_json prints them with a
decimal point or exponent, never as bare integers); `u32` values as integer
numbers. -/

def encodeDrawCommand (c : DrawCommand) : Json :=
  .obj [("prev", .arr [.num (.float c.prev.1), .num (.float c.prev.2)]),
        ("cur", .arr [.num (.float c.cur.1), .num (.float c.cur.2)]),
        ("color", .str c.color),
        ("brush_size", .num (.int (c.brush_size : ℤ)))]

def encodeEraseCommand (c : EraseCommand) : Json :=
  .obj [("prev", .arr [.num (.float c.prev.1), .num (.float c.prev.2)]),
        ("cur", .arr [.num (.float c.cur.1), .num (.float c.cur.2)]),
        ("brush_size", .num (.int (c.brush_size : ℤ)))]

def encodeMessage : MessageType → Json
  | .Draw c => .obj [("type", .str "Draw"), ("data", encodeDrawCommand c)]
  | .Clear => .obj [("type", .str "Clear")]
  | .Erase c => .obj [("type", .str "Erase"), ("data", encodeEraseCommand c)]

/-! ### Connection registry and relay session (main.rs lines 11-13, 54-115) -/

/-- The producer side of a `tokio::sync::mpsc::unbounded_channel` as seen by
the registry: a FIFO queue of outbound messages plus a `closed` flag.
`closed = true` models the receiver having been dropped (the session's
delivery task terminated), the only condition under which
`UnboundedSender::send` returns `Err`. -/
structure Channel where
  closed : Bool
  queue : List Json

/-- Embeds `type Users = Arc<RwLock<HashMap<usize, mpsc::UnboundedSender<Message>>>>`
(main.rs line 11), as an association list with unique keys. -/
abbrev Users := List (ℕ × Channel)

/-- Embeds `tx.send(msg)` (main.rs line 99): appends to the queue when the channel
is open; returns an error — logged and otherwise ignored by the caller —
when the channel is closed, leaving the queue untouched. -/
def chSend (ch : Channel) (m : Json) : Channel :=
  if ch.closed then ch else { ch with queue := ch.queue ++ [m] }

/-- The fan-out loop `for (&uid, tx) in users.read().await.iter() { if
user_id != uid { ... tx.send(...) ... } }` (main.rs lines 97-103). -/
def broadcastMessage (userId : ℕ) (m : Json) (users : Users) : Users :=
  users.map (fun p => if userId ≠ p.1 then (p.1, chSend p.2 m) else p)

/-- An inbound websocket frame.  `text (some j)` is a text frame whose body
parses as the JSON value `j`; `text none` is a text frame that is not valid
JSON (serde_json's parse fails); `binary` stands for any non-text frame
(binary/ping/pong/close), for which `Message::to_str` returns `Err`. -/
inductive WsMessage where
  | text (payload : Option Json)
  | binary

/-- Embeds `async fn send_user_message(user_id, msg, users)` (main.rs lines 88-108):
non-text frames and undecodable payloads are dropped (only logged); a decoded
`MessageType` is re-serialized and fanned out to every other registered
user. -/
def sendUserMessage (userId : ℕ) (msg : WsMessage) (users : Users) : Users :=
  match msg with
  | .binary => users
  | .text none => users
  | .text (some j) =>
    match decodeJson j with
    | some m => broadcastMessage userId (encodeMessage m) users
    | none => users

/-- Embeds `users.write().await.insert(current_user_id, message_sender)` (main.rs
line 72): `HashMap::insert` adds the entry for a fresh key and silently
replaces the stored value for a duplicate key. -/
def usersInsert (id : ℕ) (ch : Channel) (users : Users) : Users :=
  if users.any (fun p => p.1 == id) then
    users.map (fun p => if p.1 = id then (id, ch) else p)
  else
    users ++ [(id, ch)]

/-- Embeds `async fn user_disconnected(my_id, users)` (main.rs lines 110-115):
removes the session's own entry from the map. -/
def userDisconnected (myId : ℕ) (users : Users) : Users :=
  users.filter (fun p => p.1 != myId)

/-- One step of the inbound transport stream: a frame, or a transport read
error (main.rs lines 75-81). -/
inductive RecvResult where
  | ok (m : WsMessage)
  | err

/-- The read loop of `connect_user` after registration (main.rs lines
74-85): processes frames in order, breaks on the first transport error or on
end-of-stream, then runs `user_disconnected`. -/
def runSession (uid : ℕ) (stream : List RecvResult) (users : Users) : Users :=
  match stream with
  | [] => userDisconnected uid users
  | .err :: _ => userDisconnected uid users
  | .ok m :: rest => runSession uid rest (sendUserMessage uid m users)

/-- The width of `usize` on the 64-bit targets this server runs on;
`AtomicUsize::fetch_add` wraps around at this modulus. -/
def USIZE_MOD : ℕ := 2 ^ 64

/-- The identifier handed to the n-th accepted connection (0-indexed):
`NEXT_USER_ID` starts at 1 (main.rs line 13) and each `connect_user` takes
the current value and increments it with the wrapping
`fetch_add(1, Relaxed)` (main.rs line 55). -/
def assignedId : ℕ → ℕ
  | 0 => 1
  | n + 1 => (assignedId n + 1) % USIZE_MOD

/-! ### Helper lemmas -/

theorem asU32_natCast (b : ℕ) (hb : b ≤ 4294967295) :
    asU32 (.num (.int (b : ℤ))) = some b := by
  have hc : (0 : ℤ) ≤ (b : ℤ) ∧ (b : ℤ) ≤ 4294967295 := by omega
  simp [asU32, hc]

theorem roundtrip_of_valid (e : MessageType) (h : validEvent e = true) :
    decodeJson (encodeMessage e) = some e := by
  cases e with
  | Clear => rfl
  | Draw c =>
    have hb : c.brush_size ≤ 4294967295 := by simpa [validEvent] using h
    have hred : decodeJson (encodeMessage (.Draw c)) =
        Option.map MessageType.Draw
          ((asU32 (.num (.int (c.brush_size : ℤ)))).bind
            (fun b => some { prev := (c.prev.1, c.prev.2), cur := (c.cur.1, c.cur.2),
                             color := c.color, brush_size := b })) := rfl
    rw [hred, asU32_natCast c.brush_size hb]
    rfl
  | Erase c =>
    have hb : c.brush_size ≤ 4294967295 := by simpa [validEvent] using h
    have hred : decodeJson (encodeMessage (.Erase c)) =
        Option.map MessageType.Erase
          ((asU32 (.num (.int (c.brush_size : ℤ)))).bind
            (fun b => some { prev := (c.prev.1, c.prev.2), cur := (c.cur.1, c.cur.2),
                             brush_size := b })) := rfl
    rw [hred, asU32_natCast c.brush_size hb]
    rfl

theorem asU32_le (j : Json) (b : ℕ) (h : asU32 j = some b) : b ≤ 4294967295 := by
  cases j with
  | num n =>
    cases n with
    | int m =>
      simp only [asU32] at h
      split at h
      · rename_i hc
        injection h with h
        omega
      · cases h
    | float q => simp [asU32] at h
  | null => simp [asU32] at h
  | bool b' => simp [asU32] at h
  | str s => simp [asU32] at h
  | arr xs => simp [asU32] at h
  | obj kvs => simp [asU32] at h

theorem decodeDrawCommand_le (d : Json) (c : DrawCommand)
    (h : decodeDrawCommand d = some c) : c.brush_size ≤ 4294967295 := by
  cases d with
  | obj kvs =>
    simp only [decodeDrawCommand, decodeDrawFields, Option.bind_eq_some] at h
    obtain ⟨p, -, cc, -, col, -, b, ⟨bj, -, hb⟩, h⟩ := h
    injection h with h
    subst h
    exact asU32_le _ _ hb
  | arr xs =>
    match xs with
    | [] => simp [decodeDrawCommand] at h
    | [a] => simp [decodeDrawCommand] at h
    | [a, b'] => simp [decodeDrawCommand] at h
    | [a, b', c'] => simp [decodeDrawCommand] at h
    | [a, b', c', d'] =>
      simp only [decodeDrawCommand, Option.bind_eq_some] at h
      obtain ⟨p, -, cc, -, col, -, b, hb, h⟩ := h
      injection h with h
      subst h
      exact asU32_le _ _ hb
    | a :: b' :: c' :: d' :: e' :: t => simp [decodeDrawCommand] at h
  | null => simp [decodeDrawCommand] at h
  | bool b' => simp [decodeDrawCommand] at h
  | num n => simp [decodeDrawCommand] at h
  | str s => simp [decodeDrawCommand] at h

theorem decodeEraseCommand_le (d : Json) (c : EraseCommand)
    (h : decodeEraseCommand d = some c) : c.brush_size ≤ 4294967295 := by
  cases d with
  | obj kvs =>
    simp only [decodeEraseCommand, decodeEraseFields, Option.bind_eq_some] at h
    obtain ⟨p, -, cc, -, b, ⟨bj, -, hb⟩, h⟩ := h
    injection h with h
    subst h
    exact asU32_le _ _ hb
  | arr xs =>
    match xs with
    | [] => simp [decodeEraseCommand] at h
    | [a] => simp [decodeEraseCommand] at h
    | [a, b'] => simp [decodeEraseCommand] at h
    | [a, b', c'] =>
      simp only [decodeEraseCommand, Option.bind_eq_some] at h
      obtain ⟨p, -, cc, -, b, hb, h⟩ := h
      injection h with h
      subst h
      exact asU32_le _ _ hb
    | a :: b' :: c' :: d' :: t => simp [decodeEraseCommand] at h
  | null => simp [decodeEraseCommand] at h
  | bool b' => simp [decodeEraseCommand] at h
  | num n => simp [decodeEraseCommand] at h
  | str s => simp [decodeEraseCommand] at h

theorem decodeTagged_valid (t : Json) (c : Option Json) (e : MessageType)
    (h : decodeTagged t c = some e) : validEvent e = true := by
  unfold decodeTagged at h
  split at h
  · rename_i d heq
    rw [Option.map_eq_some'] at h
    obtain ⟨dc, hdc, rfl⟩ := h
    simpa [validEvent] using decodeDrawCommand_le _ _ hdc
  · cases h
  · injection h with h; subst h; rfl
  · injection h with h; subst h; rfl
  · cases h
  · rename_i d heq
    rw [Option.map_eq_some'] at h
    obtain ⟨dc, hdc, rfl⟩ := h
    simpa [validEvent] using decodeEraseCommand_le _ _ hdc
  · cases h
  · cases h

theorem decodeJson_valid (j : Json) (e : MessageType)
    (h : decodeJson j = some e) : validEvent e = true := by
  unfold decodeJson at h
  split at h
  · split at h
    · exact decodeTagged_valid _ _ _ h
    · exact decodeTagged_valid _ _ _ h
    · cases h
  · exact decodeTagged_valid _ _ _ h
  · exact decodeTagged_valid _ _ _ h
  · cases h

/-- Characterization of a successful fan-out over a registry of open
channels: the sender's entry is untouched, every other entry has exactly the
encoded event appended to its queue. -/
theorem send_open_char (k : ℕ) (p : Json) (e : MessageType) (users : Users)
    (hd : decodeJson p = some e) (hopen : ∀ q ∈ users, q.2.closed = false) :
    sendUserMessage k (.text (some p)) users =
      users.map (fun q => if q.1 = k then q
        else (q.1, ⟨false, q.2.queue ++ [encodeMessage e]⟩)) := by
  simp only [sendUserMessage, hd, broadcastMessage]
  apply List.map_congr_left
  intro q hq
  obtain ⟨uid, cl, qu⟩ := q
  have hcl : cl = false := hopen _ hq
  subst hcl
  by_cases huid : uid = k
  · subst huid
    simp [chSend]
  · have : k ≠ uid := fun hk => huid hk.symm
    simp [this, huid, chSend]

/-- Fan-out (or a dropped message) never inserts or removes registry
entries, never changes a channel's closed flag, and only ever appends to a
queue. -/
theorem send_frame (k : ℕ) (msg : WsMessage) (users : Users) :
    List.Forall₂
      (fun p q => p.1 = q.1 ∧ p.2.closed = q.2.closed ∧ ∃ ext, q.2.queue = p.2.queue ++ ext)
      users (sendUserMessage k msg users) := by
  have hrefl : List.Forall₂
      (fun p q => p.1 = q.1 ∧ p.2.closed = q.2.closed ∧ ∃ ext, q.2.queue = p.2.queue ++ ext)
      users users :=
    List.forall₂_same.mpr (fun x _ => ⟨rfl, rfl, [], by simp⟩)
  cases msg with
  | binary => exact hrefl
  | text payload =>
    cases payload with
    | none => exact hrefl
    | some j =>
      cases hdec : decodeJson j with
      | none => simp only [sendUserMessage, hdec]; exact hrefl
      | some m =>
        clear hrefl
        simp only [sendUserMessage, hdec, broadcastMessage]
        induction users with
        | nil => exact List.Forall₂.nil
        | cons q rest ih =>
          refine List.Forall₂.cons ?_ ih
          by_cases hq : k ≠ q.1
          · simp only [if_pos hq, chSend]
            by_cases hcl : q.2.closed
            · simp [hcl]
            · simp only [Bool.not_eq_true] at hcl
              simp [hcl]
          · simp [if_neg hq]

/-- Closed form of the identifier sequence: the wrapping counter starts at 1
and increments once per connection. -/
theorem assignedId_eq (n : ℕ) : assignedId n = (1 + n) % USIZE_MOD := by
  induction n with
  | zero => simp [assignedId, USIZE_MOD]
  | succ m ih =>
    simp only [assignedId, ih, USIZE_MOD]
    omega

/-! ### Concrete fixtures used by witnesses and counterexamples -/

/-- The §8 scenario payload exactly as client A sends it:
`{"type":"Draw","data":{"prev":[0,0],"cur":[1,1],"color":"#000000","brush_size":4}}`
— note the coordinates are integer literals. -/
def scenarioJson : Json :=
  .obj [("type", .str "Draw"),
        ("data", .obj [("prev", .arr [.num (.int 0), .num (.int 0)]),
                       ("cur", .arr [.num (.int 1), .num (.int 1)]),
                       ("color", .str "#000000"),
                       ("brush_size", .num (.int 4))])]

/-- The event the scenario payload decodes to. -/
def scenarioEvent : MessageType :=
  .Draw { prev := (0, 0), cur := (1, 1), color := "#000000", brush_size := 4 }

/-- The wire form of `Clear`. -/
def clearJson : Json := .obj [("type", .str "Clear")]

/-- Registry with sessions A = 1, B = 2, C = 3 connected, all channels
open and empty. -/
def regABC : Users := [(1, ⟨false, []⟩), (2, ⟨false, []⟩), (3, ⟨false, []⟩)]

/-- Registry where session 2's delivery task has already terminated (its
channel is closed) while 1 and 3 are live. -/
def regClosed : Users := [(1, ⟨false, []⟩), (2, ⟨true, []⟩), (3, ⟨false, []⟩)]

/-- Observer: does a Draw payload spell its first `prev` coordinate as an
integer literal?  True for the inbound scenario text, false for every
re-encoded payload (serde_json prints `f64` in float format). -/
def firstPrevIsIntLit : Json → Bool
  | .obj (("type", _) :: ("data", .obj (("prev", .arr (.num (.int _) :: _)) :: _)) :: _) => true
  | _ => false

/-! ### The claims -/

/-- C1: for every valid Event value `e` (Draw/Erase/Clear with a
representable `u32` brush size), decoding the canonical encoding of `e`
yields `e` again: `decode(encode(e)) = e`. -/
theorem claim1_roundtrip (e : MessageType) (h : validEvent e = true) :
    decodeJson (encodeMessage e) = some e :=
  roundtrip_of_valid e h

theorem claim1_roundtrip_witness :
    validEvent scenarioEvent = true ∧
    decodeJson (encodeMessage scenarioEvent) = some scenarioEvent :=
  ⟨by decide, claim1_roundtrip scenarioEvent (by decide)⟩

/-- C2: a broadcast from session `k` over a registry of live sessions
appends exactly one copy of the encoded event to the channel of every
session `i ≠ k`, and leaves session `k`'s own channel untouched. -/
theorem claim2_broadcast_exactly_once (k : ℕ) (p : Json) (e : MessageType)
    (users : Users) (hd : decodeJson p = some e)
    (hopen : ∀ q ∈ users, q.2.closed = false) :
    sendUserMessage k (.text (some p)) users =
      users.map (fun q => if q.1 = k then q
        else (q.1, ⟨false, q.2.queue ++ [encodeMessage e]⟩)) :=
  send_open_char k p e users hd hopen

theorem claim2_broadcast_exactly_once_witness :
    sendUserMessage 1 (.text (some clearJson)) regABC =
      [(1, ⟨false, []⟩),
       (2, ⟨false, [encodeMessage .Clear]⟩),
       (3, ⟨false, [encodeMessage .Clear]⟩)] :=
  (claim2_broadcast_exactly_once 1 clearJson .Clear regABC rfl (by decide)).trans rfl

/-- C3 counterexample: in the §8 scenario the text B receives is NOT the
exact payload A sent.  The relay re-serializes the decoded value
(main.rs line 93), and serde_json prints the `f64` coordinates in float
format (`0.0`), while A sent integer literals (`0`). -/
theorem claim3_counterexample :
    ((sendUserMessage 1 (.text (some scenarioJson)) regABC).get ⟨1, by decide⟩).2.queue ≠
      [scenarioJson] := by
  intro h
  have h2 := congrArg (fun l => l.map firstPrevIsIntLit) h
  exact absurd h2 (by decide)

/-- C3 (amended): each recipient `i ≠ k` receives exactly one message — the
canonical re-encoding of the decoded event, which decodes back to the same
event (the relay is semantically lossless) but need not be byte-identical
to the inbound text (integer-literal coordinates are re-emitted in float
format). -/
theorem claim3_relay_canonical (k : ℕ) (p : Json) (e : MessageType)
    (users : Users) (hd : decodeJson p = some e)
    (hopen : ∀ q ∈ users, q.2.closed = false) :
    sendUserMessage k (.text (some p)) users =
      users.map (fun q => if q.1 = k then q
        else (q.1, ⟨false, q.2.queue ++ [encodeMessage e]⟩)) ∧
    decodeJson (encodeMessage e) = some e :=
  ⟨send_open_char k p e users hd hopen,
   roundtrip_of_valid e (decodeJson_valid p e hd)⟩

theorem claim3_relay_canonical_witness :
    sendUserMessage 1 (.text (some scenarioJson)) regABC =
      regABC.map (fun q => if q.1 = 1 then q
        else (q.1, ⟨false, q.2.queue ++ [encodeMessage scenarioEvent]⟩)) ∧
    decodeJson (encodeMessage scenarioEvent) = some scenarioEvent :=
  claim3_relay_canonical 1 scenarioJson scenarioEvent regABC (by decide) (by decide)

/-! ### Rejection lemmas for malformed payloads -/

theorem decodeJson_obj (kvs : List (String × Json)) :
    decodeJson (.obj kvs) =
      match fieldVals kvs "type", fieldVals kvs "data" with
      | [t], [] => decodeTagged t none
      | [t], [d] => decodeTagged t (some d)
      | _, _ => none := rfl

theorem decodeTag_unknown (t : String) (h1 : t ≠ "Draw") (h2 : t ≠ "Clear")
    (h3 : t ≠ "Erase") : decodeTag (.str t) = none := by
  simp [decodeTag, h1, h2, h3]

theorem decodeTagged_none (t : Json) (c : Option Json) (h : decodeTag t = none) :
    decodeTagged t c = none := by
  unfold decodeTagged
  split
  all_goals first
    | rfl
    | (rename_i heq; rw [h] at heq; cases heq)

theorem asPoint_wrong_arity (xs : List Json) (h : xs.length ≠ 2) :
    asPoint (.arr xs) = none := by
  match xs with
  | [] => rfl
  | [a] => rfl
  | [a, b] => simp at h
  | a :: b :: c :: t => rfl

theorem getField_of_missing (kvs : List (String × Json)) (f : String)
    (h : fieldVals kvs f = []) : getField kvs f = none := by
  simp [getField, h]

theorem getField_of_single (kvs : List (String × Json)) (f : String) (v : Json)
    (h : fieldVals kvs f = [v]) : getField kvs f = some v := by
  simp [getField, h]

theorem decodeDrawFields_none_brush (dkvs : List (String × Json)) (b : Json)
    (hb : fieldVals dkvs "brush_size" = [b]) (hnone : asU32 b = none) :
    decodeDrawFields dkvs = none := by
  simp only [decodeDrawFields, getField_of_single dkvs "brush_size" b hb, hnone]
  cases hA : (getField dkvs "prev").bind asPoint with
  | none => simp
  | some p =>
    cases hB : (getField dkvs "cur").bind asPoint with
    | none => simp
    | some c =>
      cases hC : (getField dkvs "color").bind asString with
      | none => simp
      | some col => simp [hnone]

theorem decodeDrawFields_none_arity (dkvs : List (String × Json)) (xs : List Json)
    (hp : fieldVals dkvs "prev" = [.arr xs]) (hlen : xs.length ≠ 2) :
    decodeDrawFields dkvs = none := by
  simp only [decodeDrawFields, getField_of_single dkvs "prev" _ hp]
  simp [asPoint_wrong_arity xs hlen]

theorem decodeDrawFields_none_missing (dkvs : List (String × Json)) (f : String)
    (hf : f ∈ ["prev", "cur", "color", "brush_size"])
    (hmiss : fieldVals dkvs f = []) : decodeDrawFields dkvs = none := by
  have hnone := getField_of_missing dkvs f hmiss
  simp only [List.mem_cons, List.not_mem_nil, or_false] at hf
  rcases hf with rfl | rfl | rfl | rfl
  · simp [decodeDrawFields, hnone]
  · simp only [decodeDrawFields, hnone]
    cases hA : (getField dkvs "prev").bind asPoint with
    | none => simp
    | some p => simp
  · simp only [decodeDrawFields, hnone]
    cases hA : (getField dkvs "prev").bind asPoint with
    | none => simp
    | some p =>
      cases hB : (getField dkvs "cur").bind asPoint with
      | none => simp
      | some c => simp
  · simp only [decodeDrawFields, hnone]
    cases hA : (getField dkvs "prev").bind asPoint with
    | none => simp
    | some p =>
      cases hB : (getField dkvs "cur").bind asPoint with
      | none => simp
      | some c =>
        cases hC : (getField dkvs "color").bind asString with
        | none => simp
        | some col => simp

/-- The scenario payload with an extra field inside `data` and another at
top level. -/
def extraFieldJson : Json :=
  .obj [("type", .str "Draw"),
        ("data", .obj [("prev", .arr [.num (.int 0), .num (.int 0)]),
                       ("cur", .arr [.num (.int 1), .num (.int 1)]),
                       ("color", .str "#000000"),
                       ("brush_size", .num (.int 4)),
                       ("extra", .str "ignored")]),
        ("unrelated", .null)]

/-- C4 counterexample: a payload with extra fields (one inside `data`, one
at top level) is NOT rejected.  serde's derived deserializers carry no
`deny_unknown_fields`, so unknown keys are ignored, an Event is produced,
and it is broadcast. -/
theorem claim4_counterexample :
    decodeJson extraFieldJson = some scenarioEvent ∧
    decodeJson (.obj [("type", .str "Clear"), ("extra", .null)]) = some .Clear ∧
    sendUserMessage 1 (.text (some extraFieldJson)) regABC ≠ regABC := by
  refine ⟨by decide, by decide, ?_⟩
  intro h
  have h2 := congrArg (fun us => us.map (fun q => q.2.queue.length)) h
  exact absurd h2 (by decide)

/-- C4 (amended): payloads with an unknown discriminant, a missing
discriminant, a negative / non-integer / out-of-range `brush_size`, a
coordinate array whose arity is not two, or a missing required field all
yield DecodeError, and an undecodable payload is never broadcast to anyone
— but payloads with extra fields are accepted, the unknown keys being
ignored. -/
theorem claim4_malformed_rejected :
    (∀ kvs t, fieldVals kvs "type" = [.str t] →
      t ≠ "Draw" → t ≠ "Clear" → t ≠ "Erase" → decodeJson (.obj kvs) = none)
    ∧ (∀ kvs, fieldVals kvs "type" = [] → decodeJson (.obj kvs) = none)
    ∧ (∀ q, asU32 (.num (.float q)) = none)
    ∧ (∀ n : ℤ, n < 0 ∨ 4294967295 < n → asU32 (.num (.int n)) = none)
    ∧ (∀ kvs dkvs b, fieldVals kvs "type" = [.str "Draw"] →
        fieldVals kvs "data" = [.obj dkvs] →
        fieldVals dkvs "brush_size" = [b] → asU32 b = none →
        decodeJson (.obj kvs) = none)
    ∧ (∀ kvs dkvs xs, fieldVals kvs "type" = [.str "Draw"] →
        fieldVals kvs "data" = [.obj dkvs] →
        fieldVals dkvs "prev" = [.arr xs] → xs.length ≠ 2 →
        decodeJson (.obj kvs) = none)
    ∧ (∀ kvs dkvs f, fieldVals kvs "type" = [.str "Draw"] →
        fieldVals kvs "data" = [.obj dkvs] →
        f ∈ ["prev", "cur", "color", "brush_size"] → fieldVals dkvs f = [] →
        decodeJson (.obj kvs) = none)
    ∧ (∀ j, decodeJson j = none →
        ∀ k users, sendUserMessage k (.text (some j)) users = users) := by
  refine ⟨?_, ?_, ?_, ?_, ?_, ?_, ?_, ?_⟩
  · intro kvs t ht h1 h2 h3
    rw [decodeJson_obj, ht]
    have hnone := fun c => decodeTagged_none (.str t) c (decodeTag_unknown t h1 h2 h3)
    cases hd : fieldVals kvs "data" with
    | nil => exact hnone none
    | cons d rest =>
      cases rest with
      | nil => exact hnone (some d)
      | cons d' rest' => rfl
  · intro kvs ht
    rw [decodeJson_obj, ht]
  · intro q
    rfl
  · intro n hn
    have : ¬(0 ≤ n ∧ n ≤ 4294967295) := by omega
    simp [asU32, this]
  · intro kvs dkvs b ht hd hb hnone
    rw [decodeJson_obj, ht, hd]
    show (decodeDrawCommand (.obj dkvs)).map MessageType.Draw = none
    rw [show decodeDrawCommand (.obj dkvs) = decodeDrawFields dkvs from rfl,
      decodeDrawFields_none_brush dkvs b hb hnone]
    rfl
  · intro kvs dkvs xs ht hd hp hlen
    rw [decodeJson_obj, ht, hd]
    show (decodeDrawCommand (.obj dkvs)).map MessageType.Draw = none
    rw [show decodeDrawCommand (.obj dkvs) = decodeDrawFields dkvs from rfl,
      decodeDrawFields_none_arity dkvs xs hp hlen]
    rfl
  · intro kvs dkvs f ht hd hf hmiss
    rw [decodeJson_obj, ht, hd]
    show (decodeDrawCommand (.obj dkvs)).map MessageType.Draw = none
    rw [show decodeDrawCommand (.obj dkvs) = decodeDrawFields dkvs from rfl,
      decodeDrawFields_none_missing dkvs f hf hmiss]
    rfl
  · intro j hj k users
    simp [sendUserMessage, hj]

theorem claim4_malformed_rejected_witness :
    decodeJson (.obj [("type", .str "Scribble")]) = none ∧
    sendUserMessage 7 (.text (some (.obj [("type", .str "Scribble")]))) regABC = regABC :=
  ⟨claim4_malformed_rejected.1 [("type", .str "Scribble")] "Scribble" rfl
      (by decide) (by decide) (by decide),
   claim4_malformed_rejected.2.2.2.2.2.2.2 _
      (claim4_malformed_rejected.1 [("type", .str "Scribble")] "Scribble" rfl
        (by decide) (by decide) (by decide)) 7 regABC⟩

/-- The event a frame decodes to, when any: the composition of
`Message::to_str` (fails on non-text frames) and
`serde_json::from_str::<MessageType>` (main.rs lines 89-90). -/
def decodedEvent : WsMessage → Option MessageType
  | .binary => none
  | .text none => none
  | .text (some j) => decodeJson j

/-- C5: a frame that is not UTF-8 text or whose payload fails to decode is
dropped entirely — the registry and every channel (including the sender's)
are left exactly as they were, nothing is sent back, and the read loop goes
on to process the rest of the stream. -/
theorem claim5_bad_frame_dropped (k : ℕ) (msg : WsMessage) (users : Users)
    (rest : List RecvResult) (h : decodedEvent msg = none) :
    sendUserMessage k msg users = users ∧
    runSession k (.ok msg :: rest) users = runSession k rest users := by
  have hs : sendUserMessage k msg users = users := by
    cases msg with
    | binary => rfl
    | text payload =>
      cases payload with
      | none => rfl
      | some j => simp [sendUserMessage, show decodeJson j = none from h]
  refine ⟨hs, ?_⟩
  rw [show runSession k (.ok msg :: rest) users =
    runSession k rest (sendUserMessage k msg users) from rfl, hs]

theorem claim5_bad_frame_dropped_witness :
    sendUserMessage 1 .binary regABC = regABC ∧
    runSession 1 [.ok .binary] regABC = runSession 1 [] regABC :=
  claim5_bad_frame_dropped 1 .binary regABC [] rfl

/-- C6: when some recipient's channel is already closed, the push failure
there is only logged — the broadcast still appends the event to every other
open channel, the sender's and the closed recipient's entries are left
unchanged, and no error escapes (fan-out is a total function of the
registry). -/
theorem claim6_send_failure_isolated (k : ℕ) (p : Json) (e : MessageType)
    (users : Users) (j : ℕ) (hj : j < users.length)
    (hclosed : (users.get ⟨j, hj⟩).2.closed = true)
    (hne : (users.get ⟨j, hj⟩).1 ≠ k)
    (hd : decodeJson p = some e) :
    sendUserMessage k (.text (some p)) users =
      users.map (fun q =>
        if q.1 = k then q
        else if q.2.closed then q
        else (q.1, ⟨false, q.2.queue ++ [encodeMessage e]⟩)) := by
  simp only [sendUserMessage, hd, broadcastMessage]
  apply List.map_congr_left
  intro q _
  obtain ⟨uid, cl, qu⟩ := q
  by_cases huid : uid = k
  · subst huid
    simp [chSend]
  · have hkq : k ≠ uid := fun hk => huid hk.symm
    cases cl with
    | true => simp [hkq, huid, chSend]
    | false => simp [hkq, huid, chSend]

theorem claim6_send_failure_isolated_witness :
    sendUserMessage 1 (.text (some clearJson)) regClosed =
      [(1, ⟨false, []⟩), (2, ⟨true, []⟩), (3, ⟨false, [encodeMessage .Clear]⟩)] :=
  (claim6_send_failure_isolated 1 clearJson .Clear regClosed 1 (by decide)
    (by decide) (by decide) rfl).trans rfl

/-- C7 counterexample: inserting a handle under an identifier that is
already present is a silent success — `HashMap::insert` replaces the stored
handle and reports nothing.  The claim's "fails on duplicate / fatal
invariant violation" does not happen in the code. -/
theorem claim7_counterexample :
    usersInsert 1 ⟨false, [Json.null]⟩ [(1, ⟨false, []⟩)] =
      [(1, ⟨false, [Json.null]⟩)] := rfl

/-- C7 (amended): registering a fresh identifier appends exactly that entry
to the registry; registering a duplicate identifier silently replaces the
existing entry's handle rather than failing (unreachable in practice given
the monotonic identifier generator). -/
theorem claim7_register (id : ℕ) (ch : Channel) (users : Users) :
    ((∀ q ∈ users, q.1 ≠ id) → usersInsert id ch users = users ++ [(id, ch)]) ∧
    ((∃ q ∈ users, q.1 = id) →
      usersInsert id ch users = users.map (fun q => if q.1 = id then (id, ch) else q)) := by
  constructor
  · intro hfresh
    have hany : users.any (fun p => p.1 == id) = false := by
      rw [List.any_eq_false]
      intro q hq
      simpa using hfresh q hq
    simp [usersInsert, hany]
  · rintro ⟨q, hq, hid⟩
    have hany : users.any (fun p => p.1 == id) = true := by
      rw [List.any_eq_true]
      exact ⟨q, hq, by simpa using hid⟩
    simp [usersInsert, hany]

theorem claim7_register_witness :
    usersInsert 5 ⟨false, []⟩ [(1, ⟨false, []⟩)] =
      [(1, ⟨false, []⟩), (5, ⟨false, []⟩)] ∧
    usersInsert 1 ⟨true, []⟩ [(1, ⟨false, []⟩)] = [(1, ⟨true, []⟩)] :=
  ⟨((claim7_register 5 ⟨false, []⟩ [(1, ⟨false, []⟩)]).1 (by decide)).trans rfl,
   ((claim7_register 1 ⟨true, []⟩ [(1, ⟨false, []⟩)]).2
      ⟨(1, ⟨false, []⟩), List.mem_singleton.mpr rfl, rfl⟩).trans rfl⟩

theorem USIZE_MOD_eq : USIZE_MOD = 18446744073709551616 := by norm_num [USIZE_MOD]

/-- C8 counterexample: `NEXT_USER_ID.fetch_add(1, Relaxed)` wraps at 2^64,
so identifiers are not monotone and not unique over the whole process
lifetime: connection number 2^64 - 1 receives identifier 0, smaller than
the first connection's identifier 1, and connection number 2^64 receives
identifier 1 again. -/
theorem claim8_counterexample :
    assignedId (2 ^ 64 - 1) < assignedId 0 ∧ assignedId (2 ^ 64) = assignedId 0 := by
  simp only [assignedId_eq, USIZE_MOD_eq]
  norm_num

/-- C8 (amended): identifiers are strictly increasing — hence process-wide
unique, never reused — across all connections accepted before the 64-bit
counter wraps (the first 2^64 - 1 connections). -/
theorem claim8_monotone_before_wrap (m n : ℕ) (hmn : m < n) (hn : n < 2 ^ 64 - 1) :
    assignedId m < assignedId n := by
  rw [assignedId_eq, assignedId_eq, USIZE_MOD_eq]
  have h64 : (2 : ℕ) ^ 64 - 1 = 18446744073709551615 := by norm_num
  rw [h64] at hn
  rw [Nat.mod_eq_of_lt (by omega), Nat.mod_eq_of_lt (by omega)]
  omega

theorem claim8_monotone_before_wrap_witness :
    assignedId 0 < assignedId 1 :=
  claim8_monotone_before_wrap 0 1 (by decide) (by norm_num)

/-- C9: two events broadcast sequentially by the same session `k` end up
appended in send order to the queue of every other live session, so each
recipient's FIFO delivery task dequeues the first event before the second
(per-producer, per-recipient ordering; nothing is claimed across different
originators). -/
theorem claim9_fifo_per_producer (k : ℕ) (p1 p2 : Json) (e1 e2 : MessageType)
    (users : Users) (h1 : decodeJson p1 = some e1) (h2 : decodeJson p2 = some e2)
    (hopen : ∀ q ∈ users, q.2.closed = false) :
    sendUserMessage k (.text (some p2)) (sendUserMessage k (.text (some p1)) users) =
      users.map (fun q => if q.1 = k then q
        else (q.1, ⟨false, q.2.queue ++ [encodeMessage e1, encodeMessage e2]⟩)) := by
  rw [send_open_char k p1 e1 users h1 hopen]
  rw [send_open_char k p2 e2 _ h2 ?_]
  · rw [List.map_map]
    apply List.map_congr_left
    intro q _
    by_cases hqk : q.1 = k
    · simp [Function.comp, hqk]
    · simp [Function.comp, hqk]
  · intro q hq
    rw [List.mem_map] at hq
    obtain ⟨a, ha, rfl⟩ := hq
    by_cases hak : a.1 = k
    · simpa [hak] using hopen a ha
    · simp [hak]

theorem claim9_fifo_per_producer_witness :
    sendUserMessage 1 (.text (some clearJson))
        (sendUserMessage 1 (.text (some scenarioJson)) regABC) =
      [(1, ⟨false, []⟩),
       (2, ⟨false, [encodeMessage scenarioEvent, encodeMessage .Clear]⟩),
       (3, ⟨false, [encodeMessage scenarioEvent, encodeMessage .Clear]⟩)] :=
  (claim9_fifo_per_producer 1 scenarioJson clearJson scenarioEvent .Clear regABC
    (by decide) rfl (by decide)).trans rfl

/-- C10: handling an inbound message never changes the registry mapping —
no entry is inserted or removed, no channel's closed flag flips, queues can
only grow by appended messages; and `user_disconnected` removes exactly the
disconnecting session's own identifier, every entry with a different
identifier surviving unchanged. -/
theorem claim10_send_preserves_registry :
    (∀ k msg users, List.Forall₂
        (fun p q => p.1 = q.1 ∧ p.2.closed = q.2.closed ∧
          ∃ ext, q.2.queue = p.2.queue ++ ext)
        users (sendUserMessage k msg users))
    ∧ (∀ id users, ∀ q ∈ users, q.1 ≠ id → q ∈ userDisconnected id users)
    ∧ (∀ id users, ∀ q ∈ userDisconnected id users, q ∈ users ∧ q.1 ≠ id) := by
  refine ⟨send_frame, ?_, ?_⟩
  · intro id users q hq hne
    simp [userDisconnected, List.mem_filter, hq, hne]
  · intro id users q hq
    simp only [userDisconnected, List.mem_filter, bne_iff_ne, ne_eq] at hq
    exact hq

theorem claim10_send_preserves_registry_witness :
    List.Forall₂
      (fun p q => p.1 = q.1 ∧ p.2.closed = q.2.closed ∧
        ∃ ext, q.2.queue = p.2.queue ++ ext)
      regABC (sendUserMessage 1 (.text (some scenarioJson)) regABC) ∧
    (2, ⟨false, []⟩) ∈ userDisconnected 1 regABC :=
  ⟨claim10_send_preserves_registry.1 1 (.text (some scenarioJson)) regABC,
   claim10_send_preserves_registry.2.1 1 regABC (2, ⟨false, []⟩)
     (by simp [regABC]) (by decide)⟩

end WsRelay
